import Mathlib

/-!
Verification development for the Energy-DB SMARD ETL pipeline (`src/main.py`).

The embedding models the pandas-based core faithfully:

* numeric cells are `PVal` (a rational, NaN, +inf or -inf), mirroring IEEE
  float behaviour of pandas columns: `None` input values become NaN in the
  pivoted float column, `+` propagates NaN, division by zero yields ±inf/NaN,
  `fillna(0)` replaces only NaN;
* `df.pivot(index=['Timestamp'], columns='Filter', values='Value')` raises
  `ValueError` whenever two records share the same (Timestamp, Filter) pair,
  regardless of the values; otherwise it produces one row per distinct
  timestamp (index sorted ascending) and one column per distinct filter name;
* a read `df[c]` of an absent column raises `KeyError`; assignment
  `df[c] = s` overwrites an existing column `c` or appends a new one;
* `drop_duplicates()` keeps the first occurrence of each full row (NaN
  compares equal to NaN for deduplication, as in pandas);
* epoch-millisecond timestamps stay `Int`: `pd.to_datetime(_, unit='ms')`
  and the later `strftime` are injective monotone renamings of the key
  column, so the row key is kept as the integer timestamp;
* HTTP responses are abstracted: a `requests` transport failure (including
  JSON decode errors, which subclass `RequestException` in requests >= 2.27),
  or a parsed JSON object with/without the expected container key.

Fallible Python functions return `Except PyErr _`; an uncaught Python
exception is `.error`.
-/

/-- Integer as a rational (kernel-reducible; agrees with the coercion,
see `qOfInt_eq`). -/
def qOfInt (z : Int) : ℚ := mkRat z 1

/-- Rational addition via `mkRat` (kernel-reducible; agrees with `+` on
`ℚ`, see `qAdd_eq`). The library's `Rat.add` is `@[irreducible]`, which
would block evaluating the model on concrete inputs by `decide`. -/
def qAdd (a b : ℚ) : ℚ := mkRat (a.num * b.den + b.num * a.den) (a.den * b.den)

/-- Rational subtraction via `mkRat` (agrees with `-`, see `qSub_eq`). -/
def qSub (a b : ℚ) : ℚ := mkRat (a.num * b.den - b.num * a.den) (a.den * b.den)

/-- Rational multiplication via `mkRat` (agrees with `*`, see `qMul_eq`). -/
def qMul (a b : ℚ) : ℚ := mkRat (a.num * b.num) (a.den * b.den)

/-- Rational division via `mkRat` (agrees with `/`, see `qDiv_eq`). -/
def qDiv (a b : ℚ) : ℚ :=
  if 0 ≤ b.num then mkRat (a.num * b.den) (a.den * b.num.natAbs)
  else mkRat (-(a.num * b.den)) (a.den * b.num.natAbs)

/-- A pandas float cell: a finite rational, NaN, or a signed infinity.
A missing value (`None` from the API, or a hole left by the pivot) is NaN,
exactly as in a pandas float column. -/
inductive PVal where
  | num (q : ℚ)
  | nan
  | inf
  | ninf
deriving DecidableEq, Repr

/-- IEEE-style addition as performed by pandas `+` on float columns:
NaN absorbs, `inf + (-inf) = NaN`. -/
def PVal.add : PVal → PVal → PVal
  | .nan, _ => .nan
  | _, .nan => .nan
  | .num a, .num b => .num (qAdd a b)
  | .inf, .ninf => .nan
  | .ninf, .inf => .nan
  | .inf, _ => .inf
  | _, .inf => .inf
  | .ninf, _ => .ninf
  | _, _ => .ninf

/-- IEEE-style division as performed by pandas `/` on float columns:
`x / 0` is `+inf`, `-inf` or `NaN` according to the sign of `x`, NaN
propagates, no exception is ever raised. -/
def PVal.div : PVal → PVal → PVal
  | .nan, _ => .nan
  | _, .nan => .nan
  | .num a, .num b =>
      if b = 0 then (if 0 < a then .inf else if a < 0 then .ninf else .nan)
      else .num (qDiv a b)
  | .inf, .num b => if b < 0 then .ninf else .inf
  | .ninf, .num b => if b < 0 then .inf else .ninf
  | .num _, .inf => .num 0
  | .num _, .ninf => .num 0
  | .inf, .inf => .nan
  | .inf, .ninf => .nan
  | .ninf, .inf => .nan
  | .ninf, .ninf => .nan

/-- IEEE-style multiplication (needed for the `* 100` in the percent
columns): NaN propagates, `inf * 0 = NaN`. -/
def PVal.mul : PVal → PVal → PVal
  | .nan, _ => .nan
  | _, .nan => .nan
  | .num a, .num b => .num (qMul a b)
  | .inf, .num b => if 0 < b then .inf else if b < 0 then .ninf else .nan
  | .num a, .inf => if 0 < a then .inf else if a < 0 then .ninf else .nan
  | .ninf, .num b => if 0 < b then .ninf else if b < 0 then .inf else .nan
  | .num a, .ninf => if 0 < a then .ninf else if a < 0 then .inf else .nan
  | .inf, .inf => .inf
  | .ninf, .ninf => .inf
  | .inf, .ninf => .ninf
  | .ninf, .inf => .ninf

/-- numpy's round-half-to-even on rationals (used by `Series.round`).
`Rat.floor` is the computable floor (equal to `Int.floor` on `ℚ`). -/
def roundHalfEven (q : ℚ) : ℤ :=
  let f := Rat.floor q
  let r := qSub q (qOfInt f)
  if r < mkRat 1 2 then f
  else if mkRat 1 2 < r then f + 1
  else if f % 2 = 0 then f else f + 1

/-- Model of `.round(2)` on a finite value: round to two decimal places. -/
def round2Q (q : ℚ) : ℚ := qDiv (qOfInt (roundHalfEven (qMul q (qOfInt 100)))) (qOfInt 100)

/-- pandas `Series.round(2)`: finite values are rounded, NaN and the
infinities are unchanged. -/
def PVal.round2 : PVal → PVal
  | .num a => .num (round2Q a)
  | x => x

/-- An entry of `raw_data_frame`: one `[ts, f, value]` triple handed to
`transform_data` (`value is None` models an upstream null). -/
structure LongRecord where
  ts : Int
  fltr : String
  value : Option ℚ
deriving DecidableEq, Repr

/-- An uncaught Python exception escaping one of the modelled functions. -/
inductive PyErr where
  /-- The error `ValueError: Index contains duplicate entries, cannot reshape`,
  raised by `df.pivot` on a duplicated (Timestamp, Filter) pair. -/
  | pivotDuplicate
  /-- A `KeyError` from reading an absent column or dict key. -/
  | keyError (c : String)
  /-- An `IndexError` from `[...][0]` on an empty list. -/
  | indexError
deriving DecidableEq, Repr

/-- A pandas DataFrame in wide form: named value columns plus the
`DatumUhrzeit` key (kept as the integer epoch-ms timestamp, since
`pd.to_datetime(_, unit='ms')` is an injective monotone renaming).
Each row's `cells` are aligned positionally with `cols`. -/
structure Wide where
  cols : List String
  rows : List (Int × List PVal)
deriving DecidableEq, Repr

/-- Index of the first column named `c` (pandas label lookup). -/
def colIdx (c : String) : List String → Option Nat
  | [] => none
  | b :: l => if b = c then some 0 else (colIdx c l).map (· + 1)

/-- Read the cell of column `c` from one row (`df[c]`, row-wise).
Reading a label that is absent is not meaningful in pandas (it raises);
callers only use this after the presence check that models `KeyError`. -/
def rowCell (cols : List String) (cells : List PVal) (c : String) : PVal :=
  match colIdx c cols with
  | some i => cells.getD i .nan
  | none => .nan

/-- Column assignment `df[c] = v`, cell part: overwrite the existing
column `c`, or append a new cell when `c` is a new label. -/
def setCells (cols : List String) (cells : List PVal) (c : String) (v : PVal) : List PVal :=
  match colIdx c cols with
  | some i => cells.set i v
  | none => cells ++ [v]

/-- Column assignment `df[c] = v`, label part. -/
def addColName (cols : List String) (c : String) : List String :=
  if cols.contains c then cols else cols ++ [c]

/-- The value an input record contributes to its pivot cell: a Python
`None` becomes NaN in the float column. -/
def toPVal : Option ℚ → PVal
  | none => .nan
  | some q => .num q

/-- The (Timestamp, Filter) key of each record; `df.pivot` demands these
be pairwise distinct. -/
def pivotKeys (raw : List LongRecord) : List (Int × String) :=
  raw.map (fun r => (r.ts, r.fltr))

/-- Codepoint-lexicographic comparison of character lists: Python's
string ordering, used by pandas when sorting column labels. -/
def lexLe : List Char → List Char → Bool
  | [], _ => true
  | _ :: _, [] => false
  | a :: as, b :: bs =>
    if a.toNat < b.toNat then true
    else if b.toNat < a.toNat then false
    else lexLe as bs

/-- The pivot's column index: the distinct filter names, sorted
ascending (pandas sorts the column labels). -/
def colIndex (raw : List LongRecord) : List String :=
  List.insertionSort (fun a b : String => lexLe a.data b.data = true) (raw.map (fun r => r.fltr)).dedup

/-- The pivot's row index: the distinct timestamps, sorted ascending. -/
def tsIndex (raw : List LongRecord) : List Int :=
  List.insertionSort (fun a b : Int => a ≤ b) (raw.map (fun r => r.ts)).dedup

/-- The pivot cell for timestamp `t`, column `c`: the (unique, when keys
are duplicate-free) record with that key, or NaN when no metric value
exists for that timestamp. -/
def cellOf (raw : List LongRecord) (t : Int) (c : String) : PVal :=
  match raw.find? (fun r => r.ts == t && r.fltr == c) with
  | some r => toPVal r.value
  | none => .nan

/-- Model of `df.pivot(index=['Timestamp'], columns='Filter', values='Value')`
followed by `reset_index` (the duplicate-key check lives in
`transform_data`). -/
def pivotWide (raw : List LongRecord) : Wide :=
  { cols := colIndex raw
    rows := (tsIndex raw).map (fun t => (t, (colIndex raw).map (cellOf raw t))) }

/-- Model of `df.sort_values(by=['Timestamp'])`: rows ordered by ascending key
(keys are distinct after the pivot, so any sort gives this order). -/
def sortRowsList (rows : List (Int × List PVal)) : List (Int × List PVal) :=
  List.insertionSort (fun a b : Int × List PVal => a.1 ≤ b.1) rows

/-- Model of `df.drop_duplicates()`: keep the first occurrence of each full row. -/
def pdDropDupGo {α : Type} [DecidableEq α] : List α → List α → List α
  | [], _ => []
  | a :: l, seen => if a ∈ seen then pdDropDupGo l seen else a :: pdDropDupGo l (a :: seen)

/-- Model of `df.drop_duplicates()` over the whole row list. -/
def pdDropDuplicates {α : Type} [DecidableEq α] (l : List α) : List α :=
  pdDropDupGo l []

/-- Steps 1-3 of `transform_data` on duplicate-free input: pivot, sort by
timestamp, replace `Timestamp` by the (injectively renamed) key column,
drop exact duplicate rows. -/
def pivotSortDedup (raw : List LongRecord) : Wide :=
  let w := pivotWide raw
  { cols := w.cols, rows := pdDropDuplicates (sortRowsList w.rows) }

/-- The columns read by lines 131-134 of `main.py`, in evaluation order;
the first absent one raises `KeyError`. -/
def requiredCols : List String :=
  ["WINDOFFSHORE", "WINDONSHORE", "WATER", "BIOGAS", "SOLAR", "PUMPSTORAGE",
   "RENEWABLE_MISC", "BRAUNKOHLE", "STEINKOHLE", "GAS", "FOSSIL_MISC", "NETZLAST"]

/-- Line 131, right-hand side (row-wise): the seven renewable columns
added left to right, then `.round(2)`. -/
def trOf (cols : List String) (cells : List PVal) : PVal :=
  (((((((rowCell cols cells "WINDOFFSHORE").add (rowCell cols cells "WINDONSHORE")).add
    (rowCell cols cells "WATER")).add (rowCell cols cells "BIOGAS")).add
    (rowCell cols cells "SOLAR")).add (rowCell cols cells "PUMPSTORAGE")).add
    (rowCell cols cells "RENEWABLE_MISC")).round2

/-- Line 132, right-hand side (row-wise): the four fossil columns added
left to right, then `.round(2)`. -/
def tfOf (cols : List String) (cells : List PVal) : PVal :=
  ((((rowCell cols cells "BRAUNKOHLE").add (rowCell cols cells "STEINKOHLE")).add
    (rowCell cols cells "GAS")).add (rowCell cols cells "FOSSIL_MISC")).round2

/-- Line 133, right-hand side (row-wise): `Total_Renew / NETZLAST * 100`
rounded. -/
def rpOf (cols : List String) (cells : List PVal) : PVal :=
  (((rowCell cols cells "Total_Renew").div (rowCell cols cells "NETZLAST")).mul
    (.num 100)).round2

/-- Line 134, right-hand side (row-wise): `Total_Fossil / NETZLAST * 100`
rounded. -/
def fpOf (cols : List String) (cells : List PVal) : PVal :=
  (((rowCell cols cells "Total_Fossil").div (rowCell cols cells "NETZLAST")).mul
    (.num 100)).round2

/-- Row-wise effect of lines 131-134: the four sequential column
assignments `Total_Renew`, `Total_Fossil`, `Renew_Perc`, `Fossil_Perc`.
Each right-hand side reads the frame as already updated by the previous
assignments, exactly as the source does; all operations are elementwise,
so the vectorised pandas statements equal this per-row computation. -/
def deriveRowCells (cols : List String) (cells : List PVal) : List PVal :=
  let cols1 := addColName cols "Total_Renew"
  let cells1 := setCells cols cells "Total_Renew" (trOf cols cells)
  let cols2 := addColName cols1 "Total_Fossil"
  let cells2 := setCells cols1 cells1 "Total_Fossil" (tfOf cols1 cells1)
  let cols3 := addColName cols2 "Renew_Perc"
  let cells3 := setCells cols2 cells2 "Renew_Perc" (rpOf cols2 cells2)
  setCells cols3 cells3 "Fossil_Perc" (fpOf cols3 cells3)

/-- Label part of the four assignments of lines 131-134. -/
def deriveCols (cols : List String) : List String :=
  addColName (addColName (addColName (addColName cols "Total_Renew") "Total_Fossil")
    "Renew_Perc") "Fossil_Perc"

/-- Step 4 of `transform_data` (lines 131-134): raises `KeyError` at the
first absent metric column, otherwise appends/overwrites the four derived
columns. -/
def derive (w : Wide) : Except PyErr Wide :=
  match requiredCols.find? (fun c => !(w.cols.contains c)) with
  | some c => .error (.keyError c)
  | none => .ok { cols := deriveCols w.cols
                  rows := w.rows.map (fun r => (r.1, deriveRowCells w.cols r.2)) }

/-- Model of `transform_data` (`main.py` lines 101-140): empty input returns the
empty DataFrame; a duplicated (Timestamp, Filter) pair makes `df.pivot`
raise `ValueError`; otherwise pivot, sort, dedup and derive. -/
def transform_data (raw : List LongRecord) : Except PyErr Wide :=
  if raw = [] then .ok ⟨[], []⟩
  else if (pivotKeys raw).Nodup then derive (pivotSortDedup raw)
  else .error .pivotDuplicate

/-- The outcome of the index request made by `get_available_blocks`:
either a `requests` failure (transport error, timeout, non-JSON body -
`requests.exceptions.JSONDecodeError` subclasses `RequestException`), or a
parsed JSON object whose `timestamps` member is present (`some ts`) or
absent (`none`). -/
inductive IndexResponse where
  | transportErr
  | okJson (timestamps : Option (List Int))

/-- The outcome of the block-data request made by `fetch_smard_data`:
a `requests` failure (including a non-2xx status via `raise_for_status`
and JSON decode errors), or a parsed JSON object whose `series` member is
present or absent. -/
inductive DataResponse where
  | transportErr
  | okJson (series : Option (List (Int × Option ℚ)))

/-- Model of `get_available_blocks` (`main.py` lines 55-70): the `try` block
catches only `requests.exceptions.RequestException`, so a transport
failure degrades to `[]`, but a valid JSON object lacking `timestamps`
raises an uncaught `KeyError` at `data["timestamps"]`. -/
def get_available_blocks (resp : IndexResponse) : Except PyErr (List Int) :=
  match resp with
  | .transportErr => .ok []
  | .okJson none => .error (.keyError "timestamps")
  | .okJson (some ts) => .ok ts

/-- Model of `fetch_smard_data` (`main.py` lines 76-95): transport failures are
caught, and a response whose `series` member is missing (or empty, caught
by the explicit `not data['series']` check) yields `[]`; no path raises. -/
def fetch_smard_data (resp : DataResponse) : List (Int × Option ℚ) :=
  match resp with
  | .transportErr => []
  | .okJson none => []
  | .okJson (some s) => s

/-- The `SMARD_FILTER` dict (`main.py` lines 25-49), in insertion order. -/
def SMARD_FILTER : List (String × Int) :=
  [("NETZLAST", 410), ("BRAUNKOHLE", 1223), ("WINDOFFSHORE", 1225), ("WATER", 1226),
   ("FOSSIL_MISC", 1227), ("RENEWABLE_MISC", 1228), ("BIOGAS", 4066), ("WINDONSHORE", 4067),
   ("SOLAR", 4068), ("STEINKOHLE", 4069), ("PUMPSTORAGE", 4070), ("GAS", 4071),
   ("RESIDUALLOAD", 4359), ("PUMPEDCONSUMED", 4387), ("PRICE_DE", 4169), ("PRICE_BG", 4996),
   ("PRICE_NW", 4997), ("PRICE_AU", 4170), ("PRICE_FR", 254), ("PRICE_PL", 258),
   ("PRICE_IT", 255), ("PRICE_CH", 259), ("PRICE_UN", 262)]

/-- The reverse lookup `[k for k, v in SMARD_FILTER.items() if v == fltr][0]`
(line 227): the first key whose value matches; `none` models the
`IndexError` of `[0]` on no match. -/
def filterName (v : Int) : Option String :=
  (SMARD_FILTER.find? (fun p => p.2 == v)).map (fun p => p.1)

/-- The list `filter_lst` (`main.py` lines 200-214): the metric codes of the run,
in source order. -/
def filter_lst : List Int :=
  [410, 1223, 4069, 4071, 1227, 1225, 4067, 1226, 4066, 4068, 4070, 1228]

/-- The constant `BLOCKS_TO_FETCH` (line 19). -/
def BLOCKS_TO_FETCH : Nat := 2

/-- The upstream SMARD API of one run, abstracted: what each index
request and each block-data request would return (region and resolution
are the fixed module constants). -/
structure SmardApi where
  index : Int → IndexResponse
  data : Int → Int → DataResponse

/-- Model of `blocks.sort(reverse=True)`: descending sort. -/
def sortDescInt (l : List Int) : List Int :=
  List.insertionSort (fun a b : Int => b ≤ a) l

/-- One iteration of the extract loop (lines 219-231) over the state
`(raw_data, raw_data_frame)`: request the available blocks (an uncaught
`KeyError` from `get_available_blocks` aborts the run), fetch the
`BLOCKS_TO_FETCH` most recent ones, tag each observation with the
metric's symbolic name, and clear `raw_data` for the next iteration. -/
def extractStep (api : SmardApi) (st : List (Int × Option ℚ) × List LongRecord) (fltr : Int) :
    Except PyErr (List (Int × Option ℚ) × List LongRecord) :=
  match get_available_blocks (api.index fltr) with
  | .error e => .error e
  | .ok blocks =>
    let raw := st.1 ++ ((sortDescInt blocks).take BLOCKS_TO_FETCH).flatMap
        (fun b => fetch_smard_data (api.data fltr b))
    match filterName fltr with
    | none => .error .indexError
    | some f => .ok ([], st.2 ++ raw.map (fun p => ⟨p.1, f, p.2⟩))

/-- The extract `for` loop: run `extractStep` over the remaining metric
codes, stopping at the first uncaught exception. -/
def extractLoop (api : SmardApi) (st : List (Int × Option ℚ) × List LongRecord) :
    List Int → Except PyErr (List (Int × Option ℚ) × List LongRecord)
  | [] => .ok st
  | f :: fls =>
    match extractStep api st f with
    | .error e => .error e
    | .ok st2 => extractLoop api st2 fls

/-- The whole extract phase: the loop over `filter_lst` starting from
empty buffers; the final `raw_data_frame` is the input of
`transform_data`. -/
def extractAll (api : SmardApi) : Except PyErr (List LongRecord) :=
  match extractLoop api ([], []) filter_lst with
  | .error e => .error e
  | .ok st => .ok st.2

/-- The blocks that `get_available_blocks` hands back for one metric on
the non-raising path. -/
def blocksOf (api : SmardApi) (fltr : Int) : List Int :=
  ((get_available_blocks (api.index fltr)).toOption).getD []

/-- The observations one metric contributes on its own: its two most
recent available blocks, fetched and flattened. -/
def perMetricFetched (api : SmardApi) (fltr : Int) : List (Int × Option ℚ) :=
  ((sortDescInt (blocksOf api fltr)).take BLOCKS_TO_FETCH).flatMap
    (fun b => fetch_smard_data (api.data fltr b))

/-- The long records one metric contributes: its own fetched
observations, tagged with its own symbolic name. -/
def taggedOf (api : SmardApi) (fltr : Int) : List LongRecord :=
  (perMetricFetched api fltr).map (fun p => ⟨p.1, (filterName fltr).getD "", p.2⟩)

/-- Model of `fillna(0)` on one cell: only NaN becomes 0. -/
def fillPV (v : PVal) : PVal := if v = .nan then .num 0 else v

/-- Model of `df_load = df_clean.copy(); df_load = df_load.fillna(0)` (lines 248-249). -/
def fillna0 (w : Wide) : Wide :=
  { cols := w.cols, rows := w.rows.map (fun r => (r.1, r.2.map fillPV)) }

/-- The `value_vars` of the `melt` call (lines 254-259), in source order. -/
def meltVars : List String :=
  ["NETZLAST", "BRAUNKOHLE", "STEINKOHLE", "GAS", "FOSSIL_MISC", "WINDOFFSHORE",
   "WINDONSHORE", "WATER", "BIOGAS", "SOLAR", "PUMPSTORAGE", "RENEWABLE_MISC",
   "Renew_Perc", "Fossil_Perc"]

/-- Model of `df_load.melt(id_vars=['DatumUhrzeit'], value_vars=..., ...)`:
raises `KeyError` when a `value_vars` label is absent, otherwise stacks
the listed columns variable-major into (DatumUhrzeit, Energiequelle,
Werte) triples. -/
def melt (w : Wide) : Except PyErr (List (Int × String × PVal)) :=
  match meltVars.find? (fun c => !(w.cols.contains c)) with
  | some c => .error (.keyError c)
  | none => .ok (meltVars.flatMap (fun c => w.rows.map (fun r => (r.1, c, rowCell w.cols r.2 c))))

/-- The load phase of `run_etl` (lines 236-260): on an empty frame the
run ends with no sink calls (`.ok none`); otherwise the CSV artifact is
the clean frame itself (written before any modification), and the
spreadsheet payload is the melt of the `fillna(0)`-ed copy. -/
def loadPhase (df_clean : Wide) :
    Except PyErr (Option (Wide × List (Int × String × PVal))) :=
  if df_clean.rows = [] then .ok none
  else
    match melt (fillna0 df_clean) with
    | .error e => .error e
    | .ok long => .ok (some (df_clean, long))

/-- Model of `run_etl` (lines 195-264), up to the external sink calls: extract,
transform, and either end with nothing to process (`.ok none`) or produce
the CSV table and the melted spreadsheet payload (`.ok (some _)`). An
`.error` is an uncaught Python exception aborting the run. -/
def run_etl (api : SmardApi) :
    Except PyErr (Option (Wide × List (Int × String × PVal))) :=
  match extractAll api with
  | .error e => .error e
  | .ok raws =>
    match transform_data raws with
    | .error e => .error e
    | .ok df_clean => loadPhase df_clean

deriving instance DecidableEq for Except

instance : IsTotal (Int × List PVal) (fun a b => a.1 ≤ b.1) :=
  ⟨fun a b => Int.le_total a.1 b.1⟩

instance : IsTrans (Int × List PVal) (fun a b => a.1 ≤ b.1) :=
  ⟨fun _ _ _ h1 h2 => le_trans h1 h2⟩

/-- The four column names created by lines 131-134. -/
def derivedNames : List String := ["Total_Renew", "Total_Fossil", "Renew_Perc", "Fossil_Perc"]

/-- A one-timestamp long input carrying every metric the derived columns
read, all values published. -/
def L12 : List LongRecord :=
  [⟨1000, "NETZLAST", some 100⟩, ⟨1000, "BRAUNKOHLE", some 10⟩, ⟨1000, "STEINKOHLE", some 5⟩,
   ⟨1000, "GAS", some 5⟩, ⟨1000, "FOSSIL_MISC", some 2⟩, ⟨1000, "WINDOFFSHORE", some 7⟩,
   ⟨1000, "WINDONSHORE", some 13⟩, ⟨1000, "WATER", some 4⟩, ⟨1000, "BIOGAS", some 6⟩,
   ⟨1000, "SOLAR", some 20⟩, ⟨1000, "PUMPSTORAGE", some 3⟩, ⟨1000, "RENEWABLE_MISC", some 1⟩]

/-- Like `L12`, but the wind-onshore value was never published (null). -/
def L2n : List LongRecord :=
  [⟨1000, "NETZLAST", some 100⟩, ⟨1000, "BRAUNKOHLE", some 10⟩, ⟨1000, "STEINKOHLE", some 5⟩,
   ⟨1000, "GAS", some 5⟩, ⟨1000, "FOSSIL_MISC", some 2⟩, ⟨1000, "WINDOFFSHORE", some 7⟩,
   ⟨1000, "WINDONSHORE", none⟩, ⟨1000, "WATER", some 4⟩, ⟨1000, "BIOGAS", some 6⟩,
   ⟨1000, "SOLAR", some 20⟩, ⟨1000, "PUMPSTORAGE", some 3⟩, ⟨1000, "RENEWABLE_MISC", some 1⟩]

/-- The wide table produced from `L2n`. -/
def T2n : Wide := (transform_data L2n).toOption.getD ⟨[], []⟩

/-- The first (only) row of `T2n`. -/
def R2n : Int × List PVal := T2n.rows.getD 0 (0, [])

/-- Like `L12`, but the load (NETZLAST) value is 0. -/
def L3z : List LongRecord :=
  [⟨1000, "NETZLAST", some 0⟩, ⟨1000, "BRAUNKOHLE", some 10⟩, ⟨1000, "STEINKOHLE", some 5⟩,
   ⟨1000, "GAS", some 5⟩, ⟨1000, "FOSSIL_MISC", some 2⟩, ⟨1000, "WINDOFFSHORE", some 7⟩,
   ⟨1000, "WINDONSHORE", some 13⟩, ⟨1000, "WATER", some 4⟩, ⟨1000, "BIOGAS", some 6⟩,
   ⟨1000, "SOLAR", some 20⟩, ⟨1000, "PUMPSTORAGE", some 3⟩, ⟨1000, "RENEWABLE_MISC", some 1⟩]

/-- The wide table produced from `L3z`. -/
def T3z : Wide := (transform_data L3z).toOption.getD ⟨[], []⟩

/-- The first (only) row of `T3z`. -/
def R3z : Int × List PVal := T3z.rows.getD 0 (0, [])

/-- The input `L12` plus a second NETZLAST record at the same timestamp with a
different value (an upstream revision of the same hour). -/
def L6rev : List LongRecord := L12 ++ [⟨1000, "NETZLAST", some 200⟩]

/-- An upstream where every request fails at transport level. -/
def apiDown : SmardApi := ⟨fun _ => .transportErr, fun _ _ => .transportErr⟩

/-- An upstream where only NETZLAST (code 410) publishes a block with one
observation; every other metric has zero available blocks. -/
def apiOnlyLoad : SmardApi :=
  ⟨fun f => if f = 410 then .okJson (some [7]) else .okJson (some []),
   fun f _ => if f = 410 then .okJson (some [(1000, some 100)]) else .okJson none⟩

/-- The records `apiOnlyLoad` yields: metric A (everything but NETZLAST)
has no blocks, metric B (NETZLAST) succeeds. -/
def LB : List LongRecord := [⟨1000, "NETZLAST", some 100⟩]

/-- The wide table produced from `L12`. -/
def T12 : Wide := (transform_data L12).toOption.getD ⟨[], []⟩

/-- The melted spreadsheet payload produced from `T2n`. -/
def G2n : List (Int × String × PVal) := (melt (fillna0 T2n)).toOption.getD []


/-- Column labels after the line-131 assignment. -/
def stage1C (cols : List String) : List String := addColName cols "Total_Renew"

/-- Row cells after the line-131 assignment. -/
def stage1E (cols : List String) (cells : List PVal) : List PVal :=
  setCells cols cells "Total_Renew" (trOf cols cells)

/-- Column labels after the line-132 assignment. -/
def stage2C (cols : List String) : List String := addColName (stage1C cols) "Total_Fossil"

/-- Row cells after the line-132 assignment. -/
def stage2E (cols : List String) (cells : List PVal) : List PVal :=
  setCells (stage1C cols) (stage1E cols cells) "Total_Fossil"
    (tfOf (stage1C cols) (stage1E cols cells))

/-- Column labels after the line-133 assignment. -/
def stage3C (cols : List String) : List String := addColName (stage2C cols) "Renew_Perc"

/-- Row cells after the line-133 assignment. -/
def stage3E (cols : List String) (cells : List PVal) : List PVal :=
  setCells (stage2C cols) (stage2E cols cells) "Renew_Perc"
    (rpOf (stage2C cols) (stage2E cols cells))

theorem PVal.add_nan_left (x : PVal) : PVal.add .nan x = .nan := by cases x <;> rfl

theorem PVal.add_nan_right (x : PVal) : PVal.add x .nan = .nan := by cases x <;> rfl

theorem PVal.add_eq_nan {a b : PVal} (h : a = .nan ∨ b = .nan) : a.add b = .nan := by
  rcases h with h | h
  · rw [h]; exact PVal.add_nan_left b
  · rw [h]; exact PVal.add_nan_right a

theorem PVal.round2_nan : PVal.round2 .nan = .nan := rfl

theorem colIdx_lt_length {c : String} :
    ∀ {cols : List String} {i : Nat}, colIdx c cols = some i → i < cols.length := by
  intro cols
  induction cols with
  | nil => intro i h; simp [colIdx] at h
  | cons b l ih =>
    intro i h
    simp only [colIdx] at h
    split at h
    · cases h; simp
    · match hm : colIdx c l with
      | none => rw [hm] at h; simp at h
      | some j =>
        rw [hm] at h
        simp at h
        have := ih hm
        simp
        omega

theorem colIdx_eq_none {c : String} :
    ∀ {cols : List String}, colIdx c cols = none ↔ c ∉ cols := by
  intro cols
  induction cols with
  | nil => simp [colIdx]
  | cons b l ih =>
    simp only [colIdx]
    split
    · rename_i hb
      subst hb
      simp
    · rename_i hb
      constructor
      · intro h
        simp only [Option.map_eq_none'] at h
        have hcl := ih.mp h
        simp only [List.mem_cons, not_or]
        exact ⟨fun e => hb e.symm, hcl⟩
      · intro h
        simp only [List.mem_cons, not_or] at h
        have := ih.mpr h.2
        simp [this]

theorem colIdx_getD {c : String} :
    ∀ {cols : List String} {i : Nat}, colIdx c cols = some i → cols.getD i "" = c := by
  intro cols
  induction cols with
  | nil => intro i h; simp [colIdx] at h
  | cons b l ih =>
    intro i h
    simp only [colIdx] at h
    split at h
    · rename_i hb
      cases h
      simpa using hb
    · match hm : colIdx c l with
      | none => rw [hm] at h; simp at h
      | some j =>
        rw [hm] at h
        simp at h
        cases h
        simpa using ih hm

theorem colIdx_append_left {c : String} {l2 : List String} :
    ∀ {cols : List String} {i : Nat}, colIdx c cols = some i → colIdx c (cols ++ l2) = some i := by
  intro cols
  induction cols with
  | nil => intro i h; simp [colIdx] at h
  | cons b l ih =>
    intro i h
    simp only [colIdx] at h ⊢
    split at h
    · rename_i hb
      simp [hb] at h ⊢
      exact h
    · rename_i hb
      simp [hb]
      match hm : colIdx c l with
      | none => rw [hm] at h; simp at h
      | some j =>
        rw [hm] at h
        simp at h
        rw [ih hm]
        simpa using h

theorem colIdx_append_self {c : String} :
    ∀ {cols : List String}, c ∉ cols → colIdx c (cols ++ [c]) = some cols.length := by
  intro cols
  induction cols with
  | nil => intro _; simp [colIdx]
  | cons b l ih =>
    intro h
    simp at h
    simp only [colIdx, List.cons_append]
    have hb : ¬ (b = c) := fun e => h.1 e.symm
    simp [hb, ih h.2]

theorem colIdx_append_ne {c c2 : String} (hne : c2 ≠ c) :
    ∀ {cols : List String}, colIdx c2 (cols ++ [c]) = colIdx c2 cols := by
  intro cols
  induction cols with
  | nil =>
    have : ¬ (c = c2) := fun e => hne e.symm
    simp [colIdx, this]
  | cons b l ih =>
    simp only [colIdx, List.cons_append]
    split
    · rfl
    · simp only [List.append_eq]
      rw [ih]

theorem contains_eq_true_iff {c : String} {cols : List String} :
    cols.contains c = true ↔ c ∈ cols := by
  constructor
  · intro h
    obtain ⟨b, hb, he⟩ := List.contains_iff_exists_mem_beq.mp h
    have : c = b := by simpa using he
    rwa [this]
  · intro h
    exact List.contains_iff_exists_mem_beq.mpr ⟨c, h, by simp⟩

theorem colIdx_mem_of_some {c : String} {cols : List String} {i : Nat}
    (hm : colIdx c cols = some i) : c ∈ cols := by
  by_contra hc
  rw [colIdx_eq_none.mpr hc] at hm
  cases hm

theorem rowCell_assign_same {cols : List String} {cells : List PVal} {c : String} {v : PVal}
    (h : cells.length = cols.length) :
    rowCell (addColName cols c) (setCells cols cells c v) c = v := by
  unfold rowCell setCells addColName
  match hm : colIdx c cols with
  | some i =>
    have hcc : cols.contains c = true := contains_eq_true_iff.mpr (colIdx_mem_of_some hm)
    rw [if_pos hcc, hm]
    have hi : i < cells.length := h ▸ colIdx_lt_length hm
    simp [List.getD_eq_getElem?_getD, List.getElem?_set_self hi]
  | none =>
    have hmem : c ∉ cols := colIdx_eq_none.mp hm
    have hcc : ¬ (cols.contains c = true) := fun hcc => hmem (contains_eq_true_iff.mp hcc)
    rw [if_neg hcc, colIdx_append_self hmem]
    rw [← h]
    simp [List.getD_eq_getElem?_getD, List.getElem?_concat_length]

theorem rowCell_assign_other {cols : List String} {cells : List PVal} {c c2 : String} {v : PVal}
    (h : cells.length = cols.length) (hne : c2 ≠ c) :
    rowCell (addColName cols c) (setCells cols cells c v) c2 = rowCell cols cells c2 := by
  unfold rowCell setCells addColName
  match hm : colIdx c cols with
  | some i =>
    have hcc : cols.contains c = true := contains_eq_true_iff.mpr (colIdx_mem_of_some hm)
    rw [if_pos hcc]
    match hm2 : colIdx c2 cols with
    | some j =>
      have hij : i ≠ j := by
        intro e
        apply hne
        have e1 := colIdx_getD hm
        have e2 := colIdx_getD hm2
        rw [← e1, ← e2, e]
      simp [List.getD_eq_getElem?_getD, List.getElem?_set_ne hij]
    | none => rfl
  | none =>
    have hmem : c ∉ cols := colIdx_eq_none.mp hm
    have hcc : ¬ (cols.contains c = true) := fun hcc => hmem (contains_eq_true_iff.mp hcc)
    rw [if_neg hcc, colIdx_append_ne hne]
    match hm2 : colIdx c2 cols with
    | some j =>
      have hj : j < cells.length := h ▸ colIdx_lt_length hm2
      simp [List.getD_eq_getElem?_getD, List.getElem?_append_left hj]
    | none => rfl

theorem assign_length {cols : List String} {cells : List PVal} {c : String} {v : PVal}
    (h : cells.length = cols.length) :
    (setCells cols cells c v).length = (addColName cols c).length := by
  unfold setCells addColName
  match hm : colIdx c cols with
  | some i =>
    have hcc : cols.contains c = true := contains_eq_true_iff.mpr (colIdx_mem_of_some hm)
    rw [if_pos hcc]
    simp [h]
  | none =>
    have hmem : c ∉ cols := colIdx_eq_none.mp hm
    have hcc : ¬ (cols.contains c = true) := fun hcc => hmem (contains_eq_true_iff.mp hcc)
    rw [if_neg hcc]
    simp [h]

theorem deriveRowCells_eq {cols : List String} {cells : List PVal} :
    deriveRowCells cols cells =
      setCells (stage3C cols) (stage3E cols cells) "Fossil_Perc"
        (fpOf (stage3C cols) (stage3E cols cells)) := rfl

theorem deriveCols_eq {cols : List String} :
    deriveCols cols = addColName (stage3C cols) "Fossil_Perc" := rfl

theorem stage1_len {cols : List String} {cells : List PVal}
    (h : cells.length = cols.length) : (stage1E cols cells).length = (stage1C cols).length :=
  assign_length h

theorem stage2_len {cols : List String} {cells : List PVal}
    (h : cells.length = cols.length) : (stage2E cols cells).length = (stage2C cols).length :=
  assign_length (stage1_len h)

theorem stage3_len {cols : List String} {cells : List PVal}
    (h : cells.length = cols.length) : (stage3E cols cells).length = (stage3C cols).length :=
  assign_length (stage2_len h)

theorem rowCell_stage1_other {cols : List String} {cells : List PVal} {c2 : String}
    (h : cells.length = cols.length) (hne : c2 ≠ "Total_Renew") :
    rowCell (stage1C cols) (stage1E cols cells) c2 = rowCell cols cells c2 :=
  rowCell_assign_other h hne

theorem rowCell_stage2_other {cols : List String} {cells : List PVal} {c2 : String}
    (h : cells.length = cols.length) (hn1 : c2 ≠ "Total_Renew") (hn2 : c2 ≠ "Total_Fossil") :
    rowCell (stage2C cols) (stage2E cols cells) c2 = rowCell cols cells c2 := by
  unfold stage2C stage2E
  rw [rowCell_assign_other (stage1_len h) hn2]
  exact rowCell_stage1_other h hn1

theorem rowCell_stage3_other {cols : List String} {cells : List PVal} {c2 : String}
    (h : cells.length = cols.length) (hn1 : c2 ≠ "Total_Renew") (hn2 : c2 ≠ "Total_Fossil")
    (hn3 : c2 ≠ "Renew_Perc") :
    rowCell (stage3C cols) (stage3E cols cells) c2 = rowCell cols cells c2 := by
  unfold stage3C stage3E
  rw [rowCell_assign_other (stage2_len h) hn3]
  exact rowCell_stage2_other h hn1 hn2

theorem rowCell_stage2_TR {cols : List String} {cells : List PVal}
    (h : cells.length = cols.length) :
    rowCell (stage2C cols) (stage2E cols cells) "Total_Renew" = trOf cols cells := by
  unfold stage2C stage2E
  rw [rowCell_assign_other (stage1_len h) (by decide)]
  exact rowCell_assign_same h

theorem tfOf_stage1 {cols : List String} {cells : List PVal}
    (h : cells.length = cols.length) :
    tfOf (stage1C cols) (stage1E cols cells) = tfOf cols cells := by
  unfold tfOf
  rw [rowCell_stage1_other h (by decide), rowCell_stage1_other h (by decide),
    rowCell_stage1_other h (by decide), rowCell_stage1_other h (by decide)]

theorem rowCell_stage3_TF {cols : List String} {cells : List PVal}
    (h : cells.length = cols.length) :
    rowCell (stage3C cols) (stage3E cols cells) "Total_Fossil" = tfOf cols cells := by
  unfold stage3C stage3E
  rw [rowCell_assign_other (stage2_len h) (by decide)]
  unfold stage2C stage2E
  rw [rowCell_assign_same (stage1_len h)]
  exact tfOf_stage1 h

theorem deriveRow_len {cols : List String} {cells : List PVal}
    (h : cells.length = cols.length) :
    (deriveRowCells cols cells).length = (deriveCols cols).length := by
  rw [deriveRowCells_eq, deriveCols_eq]
  exact assign_length (stage3_len h)

theorem deriveRow_other {cols : List String} {cells : List PVal} {c2 : String}
    (h : cells.length = cols.length) (hc : c2 ∉ derivedNames) :
    rowCell (deriveCols cols) (deriveRowCells cols cells) c2 = rowCell cols cells c2 := by
  simp only [derivedNames, List.mem_cons, not_or] at hc
  obtain ⟨h1, h2, h3, h4, -⟩ := hc
  rw [deriveRowCells_eq, deriveCols_eq]
  rw [rowCell_assign_other (stage3_len h) h4]
  exact rowCell_stage3_other h h1 h2 h3

theorem deriveRow_TR {cols : List String} {cells : List PVal}
    (h : cells.length = cols.length) :
    rowCell (deriveCols cols) (deriveRowCells cols cells) "Total_Renew" = trOf cols cells := by
  rw [deriveRowCells_eq, deriveCols_eq]
  rw [rowCell_assign_other (stage3_len h) (by decide)]
  unfold stage3C stage3E
  rw [rowCell_assign_other (stage2_len h) (by decide)]
  exact rowCell_stage2_TR h

theorem deriveRow_TF {cols : List String} {cells : List PVal}
    (h : cells.length = cols.length) :
    rowCell (deriveCols cols) (deriveRowCells cols cells) "Total_Fossil" = tfOf cols cells := by
  rw [deriveRowCells_eq, deriveCols_eq]
  rw [rowCell_assign_other (stage3_len h) (by decide)]
  exact rowCell_stage3_TF h

theorem deriveRow_RP {cols : List String} {cells : List PVal}
    (h : cells.length = cols.length) :
    rowCell (deriveCols cols) (deriveRowCells cols cells) "Renew_Perc" =
      (((trOf cols cells).div (rowCell cols cells "NETZLAST")).mul (.num 100)).round2 := by
  rw [deriveRowCells_eq, deriveCols_eq]
  rw [rowCell_assign_other (stage3_len h) (by decide)]
  unfold stage3C stage3E
  rw [rowCell_assign_same (stage2_len h)]
  unfold rpOf
  rw [rowCell_stage2_TR h, rowCell_stage2_other h (by decide) (by decide)]

theorem deriveRow_FP {cols : List String} {cells : List PVal}
    (h : cells.length = cols.length) :
    rowCell (deriveCols cols) (deriveRowCells cols cells) "Fossil_Perc" =
      (((tfOf cols cells).div (rowCell cols cells "NETZLAST")).mul (.num 100)).round2 := by
  rw [deriveRowCells_eq, deriveCols_eq]
  rw [rowCell_assign_same (stage3_len h)]
  unfold fpOf
  rw [rowCell_stage3_TF h, rowCell_stage3_other h (by decide) (by decide) (by decide)]

theorem pdDropDupGo_sublist {α : Type} [DecidableEq α] :
    ∀ (l seen : List α), List.Sublist (pdDropDupGo l seen) l := by
  intro l
  induction l with
  | nil => intro seen; simp [pdDropDupGo]
  | cons a t ih =>
    intro seen
    simp only [pdDropDupGo]
    split
    · exact (ih seen).trans (List.sublist_cons_self a t)
    · exact List.Sublist.cons₂ a (ih (a :: seen))

theorem pdDropDuplicates_sublist {α : Type} [DecidableEq α] (l : List α) :
    List.Sublist (pdDropDuplicates l) l := pdDropDupGo_sublist l []

theorem sortRowsList_pairwise (rows : List (Int × List PVal)) :
    (sortRowsList rows).Pairwise (fun a b => a.1 ≤ b.1) :=
  List.sorted_insertionSort (fun a b : Int × List PVal => a.1 ≤ b.1) rows

theorem psd_rows_pairwise (raw : List LongRecord) :
    (pivotSortDedup raw).rows.Pairwise (fun a b => a.1 ≤ b.1) := by
  have hs : List.Sublist (pivotSortDedup raw).rows (sortRowsList (pivotWide raw).rows) := by
    simpa [pivotSortDedup] using pdDropDuplicates_sublist (sortRowsList (pivotWide raw).rows)
  exact List.Pairwise.sublist hs (sortRowsList_pairwise (pivotWide raw).rows)

theorem psd_row_len {raw : List LongRecord} {r : Int × List PVal}
    (hr : r ∈ (pivotSortDedup raw).rows) : r.2.length = (colIndex raw).length := by
  have hr1 : r ∈ pdDropDuplicates (sortRowsList (pivotWide raw).rows) := by
    simpa [pivotSortDedup] using hr
  have h1 : r ∈ sortRowsList (pivotWide raw).rows :=
    (pdDropDuplicates_sublist _).subset hr1
  have h2 : r ∈ (pivotWide raw).rows :=
    (List.perm_insertionSort (fun a b : Int × List PVal => a.1 ≤ b.1) (pivotWide raw).rows).subset h1
  simp only [pivotWide, List.mem_map] at h2
  obtain ⟨t, _, he⟩ := h2
  rw [← he]
  simp

theorem transform_ok_cases {raw : List LongRecord} {t : Wide}
    (h : transform_data raw = .ok t) :
    (raw = [] ∧ t = ⟨[], []⟩) ∨
      ((pivotKeys raw).Nodup ∧
       requiredCols.find? (fun c => !((colIndex raw).contains c)) = none ∧
       t = ⟨deriveCols (colIndex raw),
            (pivotSortDedup raw).rows.map (fun r => (r.1, deriveRowCells (colIndex raw) r.2))⟩) := by
  unfold transform_data at h
  split at h
  · rename_i he
    cases h
    exact Or.inl ⟨he, rfl⟩
  · rename_i he
    split at h
    · rename_i hnd
      unfold derive at h
      split at h
      · cases h
      · rename_i hfind
        cases h
        exact Or.inr ⟨hnd, hfind, rfl⟩
    · cases h

theorem transform_rows_len {raw : List LongRecord} {t : Wide}
    (h : transform_data raw = .ok t) {r : Int × List PVal} (hr : r ∈ t.rows) :
    r.2.length = t.cols.length := by
  rcases transform_ok_cases h with ⟨-, ht⟩ | ⟨-, -, ht⟩
  · subst ht; simp at hr
  · subst ht
    simp only [List.mem_map] at hr
    obtain ⟨r0, hr0, he⟩ := hr
    rw [← he]
    have hl : r0.2.length = (colIndex raw).length := psd_row_len hr0
    simpa using deriveRow_len hl

theorem transform_rows_sorted {raw : List LongRecord} {t : Wide}
    (h : transform_data raw = .ok t) :
    t.rows.Pairwise (fun a b => a.1 ≤ b.1) := by
  rcases transform_ok_cases h with ⟨-, ht⟩ | ⟨-, -, ht⟩
  · subst ht; simp
  · subst ht
    refine List.pairwise_map.mpr ?_
    exact (psd_rows_pairwise raw).imp (fun hab => hab)

theorem extractStep_ok {api : SmardApi} {acc : List LongRecord}
    {f : Int} {st2 : List (Int × Option ℚ) × List LongRecord}
    (h : extractStep api ([], acc) f = .ok st2) :
    st2 = ([], acc ++ taggedOf api f) := by
  unfold extractStep at h
  split at h
  · cases h
  · rename_i blocks hb
    split at h
    · cases h
    · rename_i nm hn
      cases h
      unfold taggedOf perMetricFetched blocksOf
      rw [hb, hn]
      simp [Except.toOption]

theorem extractLoop_ok {api : SmardApi} :
    ∀ (fls : List Int) (acc : List LongRecord)
      (st : List (Int × Option ℚ) × List LongRecord),
      extractLoop api ([], acc) fls = .ok st →
      st.2 = acc ++ fls.flatMap (taggedOf api) := by
  intro fls
  induction fls with
  | nil =>
    intro acc st h
    cases h
    simp
  | cons f fls ih =>
    intro acc st h
    unfold extractLoop at h
    split at h
    · cases h
    · rename_i st2 hstep
      have he := extractStep_ok hstep
      subst he
      have h2 := ih (acc ++ taggedOf api f) st h
      rw [h2]
      simp [List.flatMap_cons, List.append_assoc]

theorem extractAll_ok {api : SmardApi} {l : List LongRecord}
    (h : extractAll api = .ok l) :
    l = filter_lst.flatMap (taggedOf api) := by
  unfold extractAll at h
  split at h
  · cases h
  · rename_i st hloop
    cases h
    simpa using extractLoop_ok filter_lst [] st hloop

theorem mem_colIndex {raw : List LongRecord} {c : String} :
    c ∈ colIndex raw ↔ c ∈ raw.map (fun r => r.fltr) := by
  unfold colIndex
  rw [List.mem_insertionSort, List.mem_dedup]

theorem run_etl_ok_cases {api : SmardApi}
    {res : Option (Wide × List (Int × String × PVal))}
    (h : run_etl api = .ok res) :
    ∃ l df, extractAll api = .ok l ∧ transform_data l = .ok df ∧ loadPhase df = .ok res := by
  unfold run_etl at h
  split at h
  · cases h
  · rename_i raws hex
    split at h
    · cases h
    · rename_i df htr
      exact ⟨raws, df, hex, htr, h⟩

theorem loadPhase_some {df csv : Wide} {long : List (Int × String × PVal)}
    (h : loadPhase df = .ok (some (csv, long))) :
    csv = df ∧ melt (fillna0 df) = .ok long := by
  unfold loadPhase at h
  split at h
  · cases h
  · split at h
    · cases h
    · rename_i long0 hm
      cases h
      exact ⟨rfl, hm⟩

theorem melt_ok {w : Wide} {long : List (Int × String × PVal)}
    (h : melt w = .ok long) :
    (∀ c ∈ meltVars, c ∈ w.cols) ∧
    long = meltVars.flatMap (fun c => w.rows.map (fun r => (r.1, c, rowCell w.cols r.2 c))) := by
  unfold melt at h
  split at h
  · cases h
  · rename_i hfind
    cases h
    refine ⟨?_, rfl⟩
    intro c hc
    have hnc := List.find?_eq_none.mp hfind c hc
    simpa [contains_eq_true_iff] using hnc

theorem rowCell_map_fillPV {cols : List String} {cells : List PVal} {c : String}
    (h : cells.length = cols.length) (hc : c ∈ cols) :
    rowCell cols (cells.map fillPV) c = fillPV (rowCell cols cells c) := by
  unfold rowCell
  match hm : colIdx c cols with
  | none => exact absurd (colIdx_eq_none.mp hm) (by simpa using hc)
  | some i =>
    have hi : i < cells.length := h ▸ colIdx_lt_length hm
    show (List.map fillPV cells).getD i PVal.nan = fillPV (cells.getD i PVal.nan)
    rw [List.getD_eq_getElem?_getD, List.getD_eq_getElem?_getD, List.getElem?_map,
      List.getElem?_eq_getElem hi]
    simp

theorem fillPV_ne_nan (v : PVal) : fillPV v ≠ .nan := by
  unfold fillPV
  split
  · simp
  · assumption

theorem trOf_eq_nan {cols : List String} {cells : List PVal}
    (h : rowCell cols cells "WINDOFFSHORE" = .nan ∨ rowCell cols cells "WINDONSHORE" = .nan ∨
         rowCell cols cells "WATER" = .nan ∨ rowCell cols cells "BIOGAS" = .nan ∨
         rowCell cols cells "SOLAR" = .nan ∨ rowCell cols cells "PUMPSTORAGE" = .nan ∨
         rowCell cols cells "RENEWABLE_MISC" = .nan) :
    trOf cols cells = .nan := by
  unfold trOf
  rcases h with h | h | h | h | h | h | h <;> rw [h] <;>
    simp [PVal.add_nan_left, PVal.add_nan_right, PVal.round2_nan]

theorem tfOf_eq_nan {cols : List String} {cells : List PVal}
    (h : rowCell cols cells "BRAUNKOHLE" = .nan ∨ rowCell cols cells "STEINKOHLE" = .nan ∨
         rowCell cols cells "GAS" = .nan ∨ rowCell cols cells "FOSSIL_MISC" = .nan) :
    tfOf cols cells = .nan := by
  unfold tfOf
  rcases h with h | h | h | h <;> rw [h] <;>
    simp [PVal.add_nan_left, PVal.add_nan_right, PVal.round2_nan]

theorem percent_not_finite {t nl : PVal} (h : nl = .num 0 ∨ nl = .nan) :
    ((t.div nl).mul (.num 100)).round2 = .inf ∨
    ((t.div nl).mul (.num 100)).round2 = .ninf ∨
    ((t.div nl).mul (.num 100)).round2 = .nan := by
  rcases h with h | h <;> subst h <;> cases t <;>
      simp only [PVal.div, PVal.mul, PVal.round2] <;>
    first
      | (split_ifs <;> simp_all [PVal.mul, PVal.round2])
      | simp

theorem transform_row_facts {raw : List LongRecord} {t : Wide}
    (h : transform_data raw = .ok t) {row : Int × List PVal} (hr : row ∈ t.rows) :
    ∃ cells : List PVal, cells.length = (colIndex raw).length ∧
      t.cols = deriveCols (colIndex raw) ∧
      row.2 = deriveRowCells (colIndex raw) cells := by
  rcases transform_ok_cases h with ⟨-, ht⟩ | ⟨-, -, ht⟩
  · subst ht; simp at hr
  · subst ht
    simp only [List.mem_map] at hr
    obtain ⟨r0, hr0, he⟩ := hr
    refine ⟨r0.2, psd_row_len hr0, rfl, ?_⟩
    rw [← he]

/-- C1: the code, evaluated at the claim's scenarios, raises instead of
deduplicating: `transform_data` on the duplicated record pair
`[(T1, NETZLAST, 100), (T1, NETZLAST, 100)]` raises the pivot's
`ValueError` (no WideRow is produced), and for a well-formed input `L12`
whose single pass succeeds, the doubled input `L12 ++ L12` also raises
instead of yielding the same table - the commented-out long-format
deduplication (line 116) and the wide-format `drop_duplicates`
(line 128) never get the chance to collapse the duplicates, because
`df.pivot` (line 119) rejects duplicated (Timestamp, Filter) keys first. -/
theorem transform_data_duplicate_input_raises :
    (transform_data L12).toOption.isSome = true ∧
    transform_data (L12 ++ L12) = .error .pivotDuplicate ∧
    transform_data [⟨1000, "NETZLAST", some 100⟩, ⟨1000, "NETZLAST", some 100⟩] =
      .error .pivotDuplicate :=
  ⟨by decide, by decide, by decide⟩

/-- C5 counterexample: a malformed-but-valid JSON index response that
lacks the `timestamps` container does NOT yield an empty sequence;
`get_available_blocks` raises an uncaught `KeyError`, because its `try`
block only catches `requests.exceptions.RequestException`. -/
theorem missing_timestamps_key_raises :
    get_available_blocks (.okJson none) = .error (.keyError "timestamps") := rfl

/-- C5 amended: `get_available_blocks` degrades to `[]` on transport
failures (including undecodable bodies) and returns the `timestamps`
member when present, but raises `KeyError` on a JSON response lacking
it; `fetch_smard_data` degrades to `[]` on transport failure and on a
missing `series` container, and never raises. -/
theorem block_discovery_error_handling :
    get_available_blocks .transportErr = .ok [] ∧
    (∀ ts : List Int, get_available_blocks (.okJson (some ts)) = .ok ts) ∧
    get_available_blocks (.okJson none) = .error (.keyError "timestamps") ∧
    fetch_smard_data .transportErr = [] ∧
    fetch_smard_data (.okJson none) = [] ∧
    (∀ s, fetch_smard_data (.okJson (some s)) = s) :=
  ⟨rfl, fun _ => rfl, rfl, rfl, rfl, fun _ => rfl⟩

/-- C5 witness: the non-degenerate branches of
`block_discovery_error_handling` at concrete responses. -/
theorem block_discovery_error_handling_witness :
    get_available_blocks (.okJson (some [3])) = .ok [3] ∧
    fetch_smard_data (.okJson (some [(5, some 1)])) = [(5, some 1)] :=
  ⟨block_discovery_error_handling.2.1 [3],
   block_discovery_error_handling.2.2.2.2.2 [(5, some 1)]⟩

/-- C6 counterexample: two records with the same timestamp and metric
but different values (100 vs 200 for NETZLAST at T1) do not both survive
into the output; `transform_data` raises the pivot's `ValueError`. -/
theorem same_ts_diff_value_scenario_raises :
    transform_data L6rev = .error .pivotDuplicate := by decide

/-- C6 amended: two records with the same timestamp and the same metric
but different values are neither merged nor silently dropped - instead
`df.pivot` raises `ValueError` on the duplicated (Timestamp, Filter)
key, aborting the transform. -/
theorem same_ts_same_metric_diff_values_pivot_raises {raw : List LongRecord}
    {s : Int} {f : String} {v1 v2 : Option ℚ} (hne : v1 ≠ v2)
    (h1 : (⟨s, f, v1⟩ : LongRecord) ∈ raw) (h2 : (⟨s, f, v2⟩ : LongRecord) ∈ raw) :
    transform_data raw = .error .pivotDuplicate := by
  have hraw : ¬ (raw = []) := by intro e; subst e; simp at h1
  have hdup : ¬ (pivotKeys raw).Nodup := by
    intro hnd
    have hnd2 : (raw.map (fun r : LongRecord => (r.ts, r.fltr))).Nodup := hnd
    have heq := List.inj_on_of_nodup_map hnd2 h1 h2 rfl
    have : v1 = v2 := by injection heq
    exact hne this
  unfold transform_data
  rw [if_neg hraw, if_neg hdup]

/-- C6 witness: `same_ts_same_metric_diff_values_pivot_raises` applied
to the concrete input `L6rev`. -/
theorem same_ts_same_metric_diff_values_witness :
    transform_data L6rev = .error .pivotDuplicate :=
  same_ts_same_metric_diff_values_pivot_raises (by decide)
    (show (⟨1000, "NETZLAST", some 100⟩ : LongRecord) ∈ L6rev by decide)
    (show (⟨1000, "NETZLAST", some 200⟩ : LongRecord) ∈ L6rev by decide)

/-- C7: the empty long-record input is a clean terminal state:
`transform_data` returns the explicitly empty frame without raising, and
whenever the extract phase collects nothing, `run_etl` ends with `none`
- no CSV write and no spreadsheet write - rather than an error. -/
theorem empty_input_clean_terminal :
    transform_data [] = .ok ⟨[], []⟩ ∧
    ∀ api : SmardApi, extractAll api = .ok [] → run_etl api = .ok none := by
  refine ⟨rfl, ?_⟩
  intro api hex
  unfold run_etl
  rw [hex]
  rfl

/-- C7 witness: `empty_input_clean_terminal` applied to the concrete
all-transport-failure upstream. -/
theorem empty_input_clean_terminal_witness :
    run_etl apiDown = .ok none :=
  empty_input_clean_terminal.2 apiDown (by decide)

/-- C2 counterexample: in the spec's scenario (load published, wind
never published), the derived total is NaN (pandas `+` propagates the
null), not the claimed 0. -/
theorem total_renew_null_scenario_is_nan :
    rowCell T2n.cols R2n.2 "WINDONSHORE" = .nan ∧
    rowCell T2n.cols R2n.2 "Total_Renew" = .nan ∧
    ¬ (rowCell T2n.cols R2n.2 "Total_Renew" = .num 0) :=
  ⟨by decide, by decide, by decide⟩

/-- C2 amended: a null value in a metric column of the renewable
partition makes that row's `Total_Renew` null (NaN), not 0 - pandas `+`
propagates NaN through the sum; likewise for the fossil partition and
`Total_Fossil`. The metric column itself stays null. -/
theorem null_metric_in_sum_makes_total_nan {raw : List LongRecord} {t : Wide}
    (h : transform_data raw = .ok t) {row : Int × List PVal} (hr : row ∈ t.rows) :
    ((rowCell t.cols row.2 "WINDOFFSHORE" = .nan ∨ rowCell t.cols row.2 "WINDONSHORE" = .nan ∨
      rowCell t.cols row.2 "WATER" = .nan ∨ rowCell t.cols row.2 "BIOGAS" = .nan ∨
      rowCell t.cols row.2 "SOLAR" = .nan ∨ rowCell t.cols row.2 "PUMPSTORAGE" = .nan ∨
      rowCell t.cols row.2 "RENEWABLE_MISC" = .nan) →
      rowCell t.cols row.2 "Total_Renew" = .nan) ∧
    ((rowCell t.cols row.2 "BRAUNKOHLE" = .nan ∨ rowCell t.cols row.2 "STEINKOHLE" = .nan ∨
      rowCell t.cols row.2 "GAS" = .nan ∨ rowCell t.cols row.2 "FOSSIL_MISC" = .nan) →
      rowCell t.cols row.2 "Total_Fossil" = .nan) := by
  obtain ⟨cells, hl, hcols, hrow⟩ := transform_row_facts h hr
  rw [hcols, hrow]
  constructor
  · intro hyp
    rw [deriveRow_TR hl]
    apply trOf_eq_nan
    rcases hyp with h1 | h1 | h1 | h1 | h1 | h1 | h1
    · exact Or.inl (by rwa [deriveRow_other hl (by decide)] at h1)
    · exact Or.inr (Or.inl (by rwa [deriveRow_other hl (by decide)] at h1))
    · exact Or.inr (Or.inr (Or.inl (by rwa [deriveRow_other hl (by decide)] at h1)))
    · exact Or.inr (Or.inr (Or.inr (Or.inl (by rwa [deriveRow_other hl (by decide)] at h1))))
    · exact Or.inr (Or.inr (Or.inr (Or.inr (Or.inl
        (by rwa [deriveRow_other hl (by decide)] at h1)))))
    · exact Or.inr (Or.inr (Or.inr (Or.inr (Or.inr (Or.inl
        (by rwa [deriveRow_other hl (by decide)] at h1))))))
    · exact Or.inr (Or.inr (Or.inr (Or.inr (Or.inr (Or.inr
        (by rwa [deriveRow_other hl (by decide)] at h1))))))
  · intro hyp
    rw [deriveRow_TF hl]
    apply tfOf_eq_nan
    rcases hyp with h1 | h1 | h1 | h1
    · exact Or.inl (by rwa [deriveRow_other hl (by decide)] at h1)
    · exact Or.inr (Or.inl (by rwa [deriveRow_other hl (by decide)] at h1))
    · exact Or.inr (Or.inr (Or.inl (by rwa [deriveRow_other hl (by decide)] at h1)))
    · exact Or.inr (Or.inr (Or.inr (by rwa [deriveRow_other hl (by decide)] at h1)))

/-- C2 witness: `null_metric_in_sum_makes_total_nan` at the concrete
scenario `L2n` (wind-onshore null). -/
theorem null_metric_in_sum_makes_total_nan_witness :
    rowCell T2n.cols R2n.2 "Total_Renew" = .nan :=
  (@null_metric_in_sum_makes_total_nan L2n T2n (by decide) R2n (by decide)).1
    (Or.inr (Or.inl (by decide)))

/-- C3 counterexample: in a row whose NETZLAST column is 0 (with a
positive renewable total), `Renew_Perc` and `Fossil_Perc` are +infinity,
not the claimed 0. -/
theorem percent_zero_load_scenario_infinite :
    rowCell T3z.cols R3z.2 "NETZLAST" = .num 0 ∧
    rowCell T3z.cols R3z.2 "Renew_Perc" = .inf ∧
    rowCell T3z.cols R3z.2 "Fossil_Perc" = .inf ∧
    ¬ (rowCell T3z.cols R3z.2 "Renew_Perc" = .num 0) :=
  ⟨by decide, by decide, by decide, by decide⟩

/-- C3 amended: in every output row whose NETZLAST column is 0 or null,
the division raises no error, but `Renew_Perc` and `Fossil_Perc` are
+infinity, -infinity or NaN - never a finite number, in particular
never 0. -/
theorem zero_or_null_load_percent_not_finite {raw : List LongRecord} {t : Wide}
    (h : transform_data raw = .ok t) {row : Int × List PVal} (hr : row ∈ t.rows)
    (hnl : rowCell t.cols row.2 "NETZLAST" = .num 0 ∨ rowCell t.cols row.2 "NETZLAST" = .nan) :
    (rowCell t.cols row.2 "Renew_Perc" = .inf ∨ rowCell t.cols row.2 "Renew_Perc" = .ninf ∨
     rowCell t.cols row.2 "Renew_Perc" = .nan) ∧
    (rowCell t.cols row.2 "Fossil_Perc" = .inf ∨ rowCell t.cols row.2 "Fossil_Perc" = .ninf ∨
     rowCell t.cols row.2 "Fossil_Perc" = .nan) := by
  obtain ⟨cells, hl, hcols, hrow⟩ := transform_row_facts h hr
  rw [hcols, hrow] at hnl ⊢
  rw [deriveRow_other hl (by decide)] at hnl
  constructor
  · rw [deriveRow_RP hl]
    exact percent_not_finite hnl
  · rw [deriveRow_FP hl]
    exact percent_not_finite hnl

/-- C3 witness: `zero_or_null_load_percent_not_finite` at the concrete
zero-load scenario `L3z`. -/
theorem zero_or_null_load_percent_witness :
    (rowCell T3z.cols R3z.2 "Renew_Perc" = .inf ∨ rowCell T3z.cols R3z.2 "Renew_Perc" = .ninf ∨
     rowCell T3z.cols R3z.2 "Renew_Perc" = .nan) ∧
    (rowCell T3z.cols R3z.2 "Fossil_Perc" = .inf ∨ rowCell T3z.cols R3z.2 "Fossil_Perc" = .ninf ∨
     rowCell T3z.cols R3z.2 "Fossil_Perc" = .nan) :=
  @zero_or_null_load_percent_not_finite L3z T3z (by decide) R3z (by decide)
    (Or.inl (by decide))

theorem qOfInt_eq (z : Int) : qOfInt z = (z : ℚ) := by
  unfold qOfInt
  rw [Rat.mkRat_eq_div]
  simp

theorem qAdd_eq (a b : ℚ) : qAdd a b = a + b := by
  have had : ((a.den : ℚ)) ≠ 0 := Nat.cast_ne_zero.mpr a.den_nz
  have hbd : ((b.den : ℚ)) ≠ 0 := Nat.cast_ne_zero.mpr b.den_nz
  unfold qAdd
  rw [Rat.mkRat_eq_div]
  push_cast
  conv_rhs => rw [← Rat.num_div_den a, ← Rat.num_div_den b]
  rw [div_add_div _ _ had hbd]
  ring_nf

theorem qSub_eq (a b : ℚ) : qSub a b = a - b := by
  have had : ((a.den : ℚ)) ≠ 0 := Nat.cast_ne_zero.mpr a.den_nz
  have hbd : ((b.den : ℚ)) ≠ 0 := Nat.cast_ne_zero.mpr b.den_nz
  unfold qSub
  rw [Rat.mkRat_eq_div]
  push_cast
  conv_rhs => rw [← Rat.num_div_den a, ← Rat.num_div_den b]
  rw [div_sub_div _ _ had hbd]
  ring_nf

theorem qMul_eq (a b : ℚ) : qMul a b = a * b := by
  unfold qMul
  rw [Rat.mkRat_eq_div]
  push_cast
  conv_rhs => rw [← Rat.num_div_den a, ← Rat.num_div_den b]
  rw [div_mul_div_comm]

theorem qDiv_eq (a b : ℚ) : qDiv a b = a / b := by
  have h : a / b = ((a.num : ℚ) * b.den) / (a.den * b.num) := by
    rcases eq_or_ne b 0 with hb0 | hb0
    · subst hb0; simp
    · have had : ((a.den : ℚ)) ≠ 0 := Nat.cast_ne_zero.mpr a.den_nz
      have hbd : ((b.den : ℚ)) ≠ 0 := Nat.cast_ne_zero.mpr b.den_nz
      have hbn : ((b.num : ℚ)) ≠ 0 := by
        simpa using Rat.num_ne_zero.mpr hb0
      have ha2 : a * ((a.den : ℚ)) = (a.num : ℚ) :=
        (eq_div_iff had).mp (Rat.num_div_den a).symm
      have hb2 : b * ((b.den : ℚ)) = (b.num : ℚ) :=
        (eq_div_iff hbd).mp (Rat.num_div_den b).symm
      rw [div_eq_div_iff hb0 (mul_ne_zero had hbn)]
      calc a * ((a.den : ℚ) * b.num) = (a * a.den) * b.num := by ring
        _ = (a.num : ℚ) * b.num := by rw [ha2]
        _ = (a.num : ℚ) * (b * b.den) := by rw [hb2]
        _ = (a.num : ℚ) * b.den * b := by ring
  rw [h]
  unfold qDiv
  rcases le_or_lt 0 b.num with hb | hb
  · rw [if_pos hb, Rat.mkRat_eq_div]
    push_cast [Int.cast_natAbs]
    rw [abs_of_nonneg (by exact_mod_cast hb : (0:ℚ) ≤ (b.num : ℚ))]
  · rw [if_neg (not_le.mpr hb), Rat.mkRat_eq_div]
    push_cast [Int.cast_natAbs]
    rw [abs_of_neg (by exact_mod_cast hb : ((b.num : ℚ)) < 0)]
    rw [mul_neg, neg_div_neg_eq]

/-- C4 counterexample: with an upstream where NETZLAST publishes one
observation and every other metric yields zero blocks, the run does not
complete - `transform_data` raises `KeyError` on the first missing
summed column, aborting `run_etl`, even though one metric did yield
observations. -/
theorem partial_metric_unavailability_aborts_run :
    extractAll apiOnlyLoad = .ok LB ∧ ¬ (LB = []) ∧
    run_etl apiOnlyLoad = .error (.keyError "WINDOFFSHORE") :=
  ⟨by decide, by decide, by decide⟩

/-- C4 amended: the run completes without raising only when the collected
long records are empty (clean nothing-to-process exit) or every metric
column read by the derived-column computation is present, i.e. every
summed metric contributed at least one record; a metric with zero blocks
or zero observations alongside nonempty data makes `transform_data`
raise `KeyError` and aborts the run. -/
theorem run_ok_requires_all_summed_metrics {api : SmardApi}
    {res : Option (Wide × List (Int × String × PVal))} {l : List LongRecord}
    (hrun : run_etl api = .ok res) (hex : extractAll api = .ok l) :
    l = [] ∨ requiredCols.all (fun c => (l.map (fun r => r.fltr)).contains c) = true := by
  obtain ⟨l2, df, hex2, htr, -⟩ := run_etl_ok_cases hrun
  rw [hex] at hex2
  cases hex2
  rcases transform_ok_cases htr with ⟨he, -⟩ | ⟨-, hfind, -⟩
  · exact Or.inl he
  · right
    rw [List.all_eq_true]
    intro c hc
    have hnc := List.find?_eq_none.mp hfind c hc
    have hmem : c ∈ colIndex l := by simpa [contains_eq_true_iff] using hnc
    have hm2 : c ∈ l.map (fun r => r.fltr) := mem_colIndex.mp hmem
    simpa [contains_eq_true_iff] using hm2

/-- C4 witness: `run_ok_requires_all_summed_metrics` at the concrete
all-transport-failure upstream (clean empty exit). -/
theorem run_ok_requires_all_summed_metrics_witness :
    ([] : List LongRecord) = [] ∨
    requiredCols.all
      (fun c => (([] : List LongRecord).map (fun r => r.fltr)).contains c) = true :=
  @run_ok_requires_all_summed_metrics apiDown none [] (by decide) (by decide)

/-- C8: in every successful output of `transform_data`, adjacent rows
are ordered by non-decreasing timestamp, and re-running the transform on
the same input yields the identical table (immediate here, since the
embedded `transform_data` is a pure function of its input). -/
theorem transform_output_sorted_and_deterministic {raw : List LongRecord} {t : Wide}
    (h : transform_data raw = .ok t) :
    List.Chain' (fun a b => a.1 ≤ b.1) t.rows ∧ transform_data raw = transform_data raw :=
  ⟨(transform_rows_sorted h).chain', rfl⟩

/-- C8 witness: `transform_output_sorted_and_deterministic` at the
concrete input `L12`. -/
theorem transform_output_sorted_witness :
    List.Chain' (fun a b : Int × List PVal => a.1 ≤ b.1) T12.rows :=
  (@transform_output_sorted_and_deterministic L12 T12 (by decide)).1

/-- C9: full characterization of the extract phase: on success, the
collected long records are exactly the per-metric concatenation, in
`filter_lst` order, of each metric's own fetched observations tagged
with that metric's own symbolic name - the `raw_data` buffer is cleared
between iterations, so records never leak across metrics, and a metric
with no blocks contributes the empty list while the others' records
appear unchanged. -/
theorem extract_metric_isolation {api : SmardApi} {l : List LongRecord}
    (h : extractAll api = .ok l) :
    l = filter_lst.flatMap (taggedOf api) :=
  extractAll_ok h

/-- C9 witness: `extract_metric_isolation` at the upstream where only
NETZLAST succeeds: its single record survives unchanged under its own
name and every other metric contributes nothing. -/
theorem extract_metric_isolation_witness :
    LB = filter_lst.flatMap (taggedOf apiOnlyLoad) :=
  @extract_metric_isolation apiOnlyLoad LB (by decide)

/-- C10: in the load phase, the CSV artifact is the unmodified clean
frame (nulls retained: `fillna` is applied to a copy), while the melted
spreadsheet payload takes each wide cell with NaN replaced by 0 - so the
spreadsheet contains no nulls and a never-published value becomes
indistinguishable from a true 0. -/
theorem csv_keeps_nulls_sheet_zero_filled {raw : List LongRecord} {df csv : Wide}
    {long : List (Int × String × PVal)}
    (htr : transform_data raw = .ok df) (h : loadPhase df = .ok (some (csv, long))) :
    csv = df ∧
    long = meltVars.flatMap
      (fun c => df.rows.map (fun r => (r.1, c, fillPV (rowCell df.cols r.2 c)))) ∧
    long.all (fun rec => rec.2.2 != PVal.nan) = true := by
  obtain ⟨hcsv, hm⟩ := loadPhase_some h
  obtain ⟨hvars, hlong⟩ := melt_ok hm
  have heq : long = meltVars.flatMap
      (fun c => df.rows.map (fun r => (r.1, c, fillPV (rowCell df.cols r.2 c)))) := by
    rw [hlong]
    rw [List.flatMap_def, List.flatMap_def]
    congr 1
    apply List.map_congr_left
    intro c hc
    have hcc : c ∈ df.cols := by simpa [fillna0] using hvars c hc
    show (fillna0 df).rows.map (fun r => (r.1, c, rowCell (fillna0 df).cols r.2 c)) =
      df.rows.map (fun r => (r.1, c, fillPV (rowCell df.cols r.2 c)))
    unfold fillna0
    rw [List.map_map]
    apply List.map_congr_left
    intro r hr
    simp only [Function.comp]
    have hlen : r.2.length = df.cols.length := transform_rows_len htr hr
    rw [rowCell_map_fillPV hlen hcc]
  refine ⟨hcsv, heq, ?_⟩
  rw [List.all_eq_true]
  intro rec hrec
  rw [heq] at hrec
  simp only [List.mem_flatMap, List.mem_map] at hrec
  obtain ⟨c, -, r, -, he⟩ := hrec
  rw [← he]
  simpa using fillPV_ne_nan (rowCell df.cols r.2 c)

/-- C10 witness: `csv_keeps_nulls_sheet_zero_filled` at the concrete
scenario `L2n` (wind-onshore null): the CSV table is `T2n` itself, and
the spreadsheet payload `G2n` is its zero-filled melt. -/
theorem csv_keeps_nulls_sheet_zero_filled_witness :
    T2n = T2n ∧
    G2n = meltVars.flatMap
      (fun c => T2n.rows.map (fun r => (r.1, c, fillPV (rowCell T2n.cols r.2 c)))) ∧
    G2n.all (fun rec => rec.2.2 != PVal.nan) = true :=
  @csv_keeps_nulls_sheet_zero_filled L2n T2n T2n G2n (by decide) (by decide)
